import Mathlib

/-!
Verification development for mackup.py (studiomohawk/mackup, version 0.1).

The program synchronizes per-application configuration files between the
user's home directory and a Dropbox folder.  Backup copies a tracked home
file into the Dropbox `Mackup` folder and replaces the original with a
symbolic link; restore recreates the home-side link from the shared copy.

We shallowly embed the program over a small filesystem model:

* `FS` maps path strings to nodes (regular file, symbolic link, directory)
  and carries an inode table so that `os.path.samefile` (device+inode
  identity) is modelled honestly: a regular-file node stores only its inode
  number, the content lives in the inode table.
* Symbolic-link resolution is fuel-bounded by `MAXLINKS` (the kernel's 40
  link-traversal bound); the fuel counts link traversals, matching the
  point at which a real path lookup fails with ELOOP.
* `os.path.isfile` / `os.path.isdir` follow links, `os.path.islink`
  inspects the entry itself, `os.remove` removes the entry (a link, not its
  target), `os.symlink target p` fails when any entry already exists at
  `p`, and `shutil.copy` reads through the source link chain and writes
  through the destination link chain (opening the destination with mode
  `wb` keeps an existing destination inode, and creates a fresh inode
  otherwise).  Writing onto a path that resolves to a directory is modelled
  as an error (`shutil.copy` into a directory copies to a path inside the
  directory; no claim exercises that case, and all theorems below restrict
  the destination to absent-or-regular-file states).
* Fallible operations return `Except PyExc`; an uncaught Python exception
  is an `Except.error`.
* The interactive `confirm` loop is modelled as a caller-supplied answer
  function from question text to `Bool` (`True` for the literal reply
  `Yes`), as the console cannot be embedded.
-/

/-- Exception classes that the program can raise or catch.  `ioErr` stands
for `IOError` (the only class `Mackup.__init__` catches), `indexErr` for
`IndexError`, `typeErr` for the `TypeError` raised by Python 2's
`base64.b64decode` on malformed input (it catches the underlying
`binascii.Error` and re-raises it as `TypeError`), and `osErr` for the
`OSError`/`IOError` family raised by the filesystem operations inside
backup/restore. -/
inductive PyExc
  | ioErr
  | indexErr
  | typeErr
  | osErr
deriving DecidableEq, Repr

/-- Filesystem node: a regular file carrying its inode number, a symbolic
link carrying its target path text, or a directory. -/
inductive Node
  | file (ino : Nat)
  | link (target : String)
  | dir
deriving DecidableEq, Repr

/-- Filesystem state: an entry per path, an inode table giving each inode
its byte content, and the next fresh inode number. -/
structure FS where
  entries : String → Option Node
  inodes : Nat → String
  nextIno : Nat

/-- Kernel bound on symbolic-link traversals in one path lookup
(MAXSYMLINKS on Linux). -/
def MAXLINKS : Nat := 40

/-- Overwrite or create the entry at path `p`. -/
def setEntry (fs : FS) (p : String) (n : Node) : FS :=
  { fs with entries := fun q => if q = p then some n else fs.entries q }

/-- Remove the entry at path `p`. -/
def delEntry (fs : FS) (p : String) : FS :=
  { fs with entries := fun q => if q = p then none else fs.entries q }

/-- Overwrite the content of inode `i`. -/
def setInode (fs : FS) (i : Nat) (c : String) : FS :=
  { fs with inodes := fun j => if j = i then c else fs.inodes j }

/-- Resolve a path to the inode and content of the regular file it denotes,
following at most `fuel` symbolic links; `none` when the path is absent, a
directory, a dangling link, or the link bound is exceeded. -/
def resolveFile (fs : FS) (fuel : Nat) (p : String) : Option (Nat × String) :=
  match fs.entries p, fuel with
  | some (Node.file i), _ => some (i, fs.inodes i)
  | some (Node.link t), Nat.succ fuel' => resolveFile fs fuel' t
  | some (Node.link _), 0 => none
  | some Node.dir, _ => none
  | none, _ => none

/-- Model of `os.path.isfile`: the path resolves (through links) to a
regular file. -/
def isfile (fs : FS) (p : String) : Bool :=
  (resolveFile fs MAXLINKS p).isSome

/-- Content of the regular file a path resolves to, when it resolves. -/
def contentAt (fs : FS) (p : String) : Option String :=
  (resolveFile fs MAXLINKS p).map Prod.snd

/-- Model of `os.path.islink`: the entry itself is a symbolic link (no
following). -/
def islink (fs : FS) (p : String) : Bool :=
  match fs.entries p with
  | some (Node.link _) => true
  | _ => false

/-- Model of `os.path.samefile`: both paths resolve to the same inode.  The
program only calls it after `isfile` checks on both arguments, so the
exception real `samefile` raises on a missing operand is unreachable; the
model returns `false` there. -/
def samefile (fs : FS) (p q : String) : Bool :=
  match resolveFile fs MAXLINKS p, resolveFile fs MAXLINKS q with
  | some a, some b => a.1 == b.1
  | _, _ => false

/-- Model of `os.path.isdir`: the path resolves (through links) to a
directory, with the same traversal bound. -/
def isdirAux (fs : FS) (fuel : Nat) (p : String) : Bool :=
  match fs.entries p, fuel with
  | some Node.dir, _ => true
  | some (Node.link t), Nat.succ fuel' => isdirAux fs fuel' t
  | _, _ => false

/-- Model of `os.path.isdir` at the kernel traversal bound. -/
def isdir (fs : FS) (p : String) : Bool :=
  isdirAux fs MAXLINKS p

/-- Path at which a write through `p` lands: follow the link chain from `p`
to the first absent or regular-file entry.  `none` when the chain reaches a
directory or exceeds the traversal bound (the open fails). -/
def resolveWrite (fs : FS) (fuel : Nat) (p : String) : Option String :=
  match fs.entries p, fuel with
  | some (Node.link t), Nat.succ fuel' => resolveWrite fs fuel' t
  | some (Node.link _), 0 => none
  | some Node.dir, _ => none
  | _, _ => some p

/-- Model of `delete` in mackup.py, i.e. `os.remove`: removes the entry at
the path (for a symbolic link, the link itself); raises on a missing path
or a directory. -/
def delete (fs : FS) (p : String) : Except PyExc FS :=
  match fs.entries p with
  | none => Except.error PyExc.osErr
  | some Node.dir => Except.error PyExc.osErr
  | some _ => Except.ok (delEntry fs p)

/-- Model of `os.symlink target p`: creates a symbolic-link entry at `p`
pointing at `target`; raises when any entry (even a dangling link) already
exists at `p`. -/
def symlinkOp (fs : FS) (target p : String) : Except PyExc FS :=
  match fs.entries p with
  | some _ => Except.error PyExc.osErr
  | none => Except.ok (setEntry fs p (Node.link target))

/-- Model of `shutil.copy src dst`: read the file `src` resolves to, then
write its content through the destination link chain — onto the existing
inode when the write path holds a regular file, at a fresh inode when the
write path is absent. -/
def copy (fs : FS) (src dst : String) : Except PyExc FS :=
  match resolveFile fs MAXLINKS src with
  | none => Except.error PyExc.osErr
  | some (_, c) =>
    match resolveWrite fs MAXLINKS dst with
    | none => Except.error PyExc.osErr
    | some w =>
      match fs.entries w with
      | some (Node.file i) => Except.ok (setInode fs i c)
      | none =>
        Except.ok { entries := fun q => if q = w then some (Node.file fs.nextIno) else fs.entries q,
                    inodes := fun j => if j = fs.nextIno then c else fs.inodes j,
                    nextIno := fs.nextIno + 1 }
      | some _ => Except.error PyExc.osErr

/-- Model of `os.path.join home filename` for the relative filenames of the
catalog (no absolute second operand, no trailing slash on the first). -/
def joinPath (a b : String) : String := a ++ "/" ++ b

/-- Result of processing one tracked file: the final filesystem or the
uncaught exception, the progress messages printed, and the confirmation
questions asked. -/
structure StepOut where
  res : Except PyExc FS
  msgs : List String
  prompts : List String

/-- Guard of `ApplicationProfile.backup` (mackup.py lines 100-104): the
home file exists and is not already a link correctly pointing at the
backup copy. -/
def backupNeeded (fs : FS) (filepath mackup_filepath : String) : Bool :=
  isfile fs filepath
    && !(islink fs filepath && isfile fs mackup_filepath
         && !(islink fs mackup_filepath) && samefile fs filepath mackup_filepath)

/-- Question asked before overwriting an existing backup copy
(mackup.py lines 111-113). -/
def backupQuestion (mackup_filepath : String) : String :=
  "A file named " ++ mackup_filepath ++ " already exists in the backup.\nOr you sure that your want to replace it ?"

/-- One iteration of the loop in `ApplicationProfile.backup` (mackup.py
lines 94-128) for the tracked relative path `filename`.  `ans` supplies the
confirmation answers. -/
def backupFile (fs : FS) (home mackup_folder filename : String) (ans : String → Bool) : StepOut :=
  let filepath := joinPath home filename
  let mackup_filepath := joinPath mackup_folder filename
  if backupNeeded fs filepath mackup_filepath then
    let msg := "Backing up " ++ filename ++ "..."
    if isfile fs mackup_filepath then
      let q := backupQuestion mackup_filepath
      if ans q then
        match delete fs mackup_filepath with
        | Except.error e => ⟨Except.error e, [msg], [q]⟩
        | Except.ok fs1 =>
          match copy fs1 filepath mackup_filepath with
          | Except.error e => ⟨Except.error e, [msg], [q]⟩
          | Except.ok fs2 =>
            match delete fs2 filepath with
            | Except.error e => ⟨Except.error e, [msg], [q]⟩
            | Except.ok fs3 =>
              match symlinkOp fs3 mackup_filepath filepath with
              | Except.error e => ⟨Except.error e, [msg], [q]⟩
              | Except.ok fs4 => ⟨Except.ok fs4, [msg], [q]⟩
      else ⟨Except.ok fs, [msg], [q]⟩
    else
      match copy fs filepath mackup_filepath with
      | Except.error e => ⟨Except.error e, [msg], []⟩
      | Except.ok fs1 =>
        match delete fs1 filepath with
        | Except.error e => ⟨Except.error e, [msg], []⟩
        | Except.ok fs2 =>
          match symlinkOp fs2 mackup_filepath filepath with
          | Except.error e => ⟨Except.error e, [msg], []⟩
          | Except.ok fs3 => ⟨Except.ok fs3, [msg], []⟩
  else ⟨Except.ok fs, [], []⟩

/-- Guard of `ApplicationProfile.restore` (mackup.py lines 152-155): the
backup copy exists and the home path is not already the same file. -/
def restoreNeeded (fs : FS) (mackup_filepath home_filepath : String) : Bool :=
  isfile fs mackup_filepath
    && !(isfile fs home_filepath && samefile fs mackup_filepath home_filepath)

/-- Question asked before replacing an existing home file
(mackup.py lines 161-163). -/
def restoreQuestion (filename : String) : String :=
  "You already have a file named " ++ filename ++ " in your home.\nDo you want to replace it with your backup ?"

/-- One iteration of the loop in `ApplicationProfile.restore` (mackup.py
lines 146-167) for the tracked relative path `filename`. -/
def restoreFile (fs : FS) (home mackup_folder filename : String) (ans : String → Bool) : StepOut :=
  let mackup_filepath := joinPath mackup_folder filename
  let home_filepath := joinPath home filename
  if restoreNeeded fs mackup_filepath home_filepath then
    let msg := "Restoring " ++ filename ++ "..."
    if isfile fs home_filepath then
      let q := restoreQuestion filename
      if ans q then
        match delete fs home_filepath with
        | Except.error e => ⟨Except.error e, [msg], [q]⟩
        | Except.ok fs1 =>
          match symlinkOp fs1 mackup_filepath home_filepath with
          | Except.error e => ⟨Except.error e, [msg], [q]⟩
          | Except.ok fs2 => ⟨Except.ok fs2, [msg], [q]⟩
      else ⟨Except.ok fs, [msg], [q]⟩
    else
      match symlinkOp fs mackup_filepath home_filepath with
      | Except.error e => ⟨Except.error e, [msg], []⟩
      | Except.ok fs1 => ⟨Except.ok fs1, [msg], []⟩
  else ⟨Except.ok fs, [], []⟩

/-- Accumulating splitter over the character list: split on whitespace
runs, dropping empty tokens; `acc` holds the current token reversed. -/
def splitWsAux : List Char → List Char → List String
  | [], acc => if acc = [] then [] else [String.mk acc.reverse]
  | c :: rest, acc =>
    if c.isWhitespace then
      if acc = [] then splitWsAux rest []
      else String.mk acc.reverse :: splitWsAux rest []
    else splitWsAux rest (c :: acc)

/-- Tokens of Python's `str.split()` with no argument: split on whitespace
runs, dropping empty tokens. -/
def pySplit (s : String) : List String :=
  splitWsAux s.toList []

/-- Value of a base64 alphabet character. -/
def b64CharVal (c : Char) : Option Nat :=
  if 'A' ≤ c ∧ c ≤ 'Z' then some (c.toNat - 65)
  else if 'a' ≤ c ∧ c ≤ 'z' then some (c.toNat - 97 + 26)
  else if '0' ≤ c ∧ c ≤ '9' then some (c.toNat - 48 + 52)
  else if c = '+' then some 62
  else if c = '/' then some 63
  else none

/-- Decode complete base64 quanta into bytes; `none` models a decoding
failure (incorrect padding or a stray padding character). -/
def b64Groups : List Char → Option (List Nat)
  | [] => some []
  | a :: b :: c :: d :: rest =>
    match b64CharVal a, b64CharVal b with
    | some va, some vb =>
      if c = '=' then
        if d = '=' ∧ rest = [] then some [va * 4 + vb / 16] else none
      else
        match b64CharVal c with
        | some vc =>
          if d = '=' then
            if rest = [] then some [va * 4 + vb / 16, (vb % 16) * 16 + vc / 4] else none
          else
            match b64CharVal d, b64Groups rest with
            | some vd, some tail =>
              some ([va * 4 + vb / 16, (vb % 16) * 16 + vc / 4, (vc % 4) * 64 + vd] ++ tail)
            | _, _ => none
        | none => none
    | _, _ => none
  | _ => none

/-- Model of Python 2 `base64.b64decode`: characters outside the alphabet
and the padding character are collected, the valid characters must form
complete 4-character quanta, and on a decoding failure the library catches
the underlying `binascii.Error` and re-raises it as `TypeError`. -/
def b64decode (s : String) : Option String :=
  let cs := s.toList.filter (fun c => (b64CharVal c).isSome || c = '=')
  (b64Groups cs).map (fun bytes => String.mk (bytes.map Char.ofNat))

/-- Model of `get_dropbox_folder_location` (mackup.py lines 303-315).  The
input is the content of `<home>/.dropbox/host.db`, `none` when opening the
file raises `IOError` (missing or unreadable).  The function splits the
content into whitespace-separated tokens and base64-decodes the second
one; a missing second token raises `IndexError` and a decoding failure
raises `TypeError` (Python 2 `base64.b64decode` re-raises the underlying
`binascii.Error` as `TypeError`) — neither is an `IOError`. -/
def get_dropbox_folder_location (hostdb : Option String) : Except PyExc String :=
  match hostdb with
  | none => Except.error PyExc.ioErr
  | some content =>
    let data := pySplit content
    match data.get? 1 with
    | none => Except.error PyExc.indexErr
    | some tok =>
      match b64decode tok with
      | none => Except.error PyExc.typeErr
      | some dropbox_home => Except.ok dropbox_home

/-- Message printed by `error(...)` when the Dropbox folder cannot be
located (mackup.py lines 178-180). -/
def dropboxMissingMsg : String :=
  "Unable to find the Dropbox folder. If Dropbox is not installed and running, go for it on <http://www.dropbox.com/>"

/-- Outcome of `Mackup.__init__` (mackup.py lines 173-183): the located
Dropbox folder, or the `error(...)` exit taken when the locator raises
`IOError`, or an uncaught exception of any other class. -/
inductive InitResult
  | initOk (dropbox_folder : String)
  | fatalMsg (msg : String)
  | uncaught (e : PyExc)
deriving DecidableEq

/-- Model of `Mackup.__init__` up to the locator handling: only `IOError`
is caught and routed to the explanatory `error(...)` exit. -/
def mackupInit (hostdb : Option String) : InitResult :=
  match get_dropbox_folder_location hostdb with
  | Except.ok d => InitResult.initOk d
  | Except.error PyExc.ioErr => InitResult.fatalMsg dropboxMissingMsg
  | Except.error e => InitResult.uncaught e

/-- Supported application catalog (mackup.py lines 22-35), flattened in
the source's literal order; Python iterates the dict in unspecified order,
and nothing below depends on the order. -/
def SUPPORTED_APPS : List (String × List String) :=
  [("Bash", [".bash_aliases", ".bash_logout", ".bashrc", ".profile"]),
   ("Git", [".gitconfig"]),
   ("Mercurial", [".hgrc"]),
   ("S3cmd", [".s3cfg"]),
   ("X11", [".Xresources"])]

/-- Every tracked relative path, in catalog order. -/
def allFiles : List String :=
  (SUPPORTED_APPS.map Prod.snd).flatten

/-- Command line mode (mackup.py lines 47-50). -/
inductive Mode
  | backup
  | restore
deriving DecidableEq

/-- Session state outside the modelled filesystem: the filesystem itself,
the content of the locator file, and whether the temporary working folder
created by `tempfile.mkdtemp` currently exists.  The locator file and the
temporary folder live outside the home-side and shared-side trees, so they
are carried next to `fs` rather than inside it. -/
structure World where
  fs : FS
  hostdb : Option String
  tempExists : Bool

/-- Outcome of a whole `main` run: normal completion with the printed
messages, an `error(...)` exit with its message, or an uncaught
exception. -/
inductive Outcome
  | success (w : World) (msgs : List String)
  | fatal (w : World) (msg : String)
  | crashed (e : PyExc)

/-- Run one per-file operation over a list of tracked paths, stopping at
the first uncaught exception and concatenating the printed messages. -/
def runFiles (op : FS → String → StepOut) : FS → List String → Except PyExc (FS × List String)
  | fs, [] => Except.ok (fs, [])
  | fs, f :: rest =>
    let out := op fs f
    match out.res with
    | Except.error e => Except.error e
    | Except.ok fs1 =>
      match runFiles op fs1 rest with
      | Except.error e => Except.error e
      | Except.ok (fs2, ms) => Except.ok (fs2, out.msgs ++ ms)

/-- Question asked by `create_mackup_home` (mackup.py lines 216-218). -/
def createQuestion (mackup_folder : String) : String :=
  "Mackup needs a folder to store your configuration  files\nDo you want to create it now ? <" ++ mackup_folder ++ ">"

/-- Message of the fatal exit taken when the user declines creating the
Mackup folder (mackup.py line 221, apostrophe omitted). -/
def noHomeMsg : String :=
  "Mackup cant do anything without a home =("

/-- Message of the fatal exit of `check_for_usable_restore_env`
(mackup.py lines 204-207). -/
def mackupMissingMsg (mackup_folder : String) : String :=
  "Unable to find the Mackup folder: " ++ mackup_folder
    ++ "\nYou might want to backup some files or get your Dropbox folder synced first."

/-- Model of `create_mackup_home` (mackup.py lines 213-221): `none` when
the user declines and `error(...)` exits; `os.mkdir` on a path occupied by
a non-directory entry would raise, modelled as creating only on an absent
path. -/
def create_mackup_home (fs : FS) (mackup_folder : String) (ans : String → Bool) : Except PyExc (Option FS) :=
  if isdir fs mackup_folder then Except.ok (some fs)
  else if ans (createQuestion mackup_folder) then
    match fs.entries mackup_folder with
    | some _ => Except.error PyExc.osErr
    | none => Except.ok (some (setEntry fs mackup_folder Node.dir))
  else Except.ok none

/-- Model of `main` (mackup.py lines 323-351): locate Dropbox (`IOError`
caught, anything else uncaught), create the temporary working folder,
check the environment for the requested mode, run every application
profile, and remove the temporary folder only on the normal path —
`error(...)` calls `sys.exit` directly and skips the cleanup. -/
def runMain (mode : Mode) (home : String) (ans : String → Bool) (w : World) : Outcome :=
  match get_dropbox_folder_location w.hostdb with
  | Except.error PyExc.ioErr => Outcome.fatal w dropboxMissingMsg
  | Except.error e => Outcome.crashed e
  | Except.ok dropbox_folder =>
    let mackup_folder := dropbox_folder ++ "/Mackup"
    let w1 : World := ⟨w.fs, w.hostdb, true⟩
    match mode with
    | Mode.backup =>
      if isdir w1.fs dropbox_folder then
        match create_mackup_home w1.fs mackup_folder ans with
        | Except.error e => Outcome.crashed e
        | Except.ok none => Outcome.fatal w1 noHomeMsg
        | Except.ok (some fs2) =>
          match runFiles (fun s f => backupFile s home mackup_folder f ans) fs2 allFiles with
          | Except.error e => Outcome.crashed e
          | Except.ok (fs3, msgs) => Outcome.success ⟨fs3, w.hostdb, false⟩ msgs
      else Outcome.fatal w1 dropboxMissingMsg
    | Mode.restore =>
      if isdir w1.fs dropbox_folder then
        if isdir w1.fs mackup_folder then
          match runFiles (fun s f => restoreFile s home mackup_folder f ans) w1.fs allFiles with
          | Except.error e => Outcome.crashed e
          | Except.ok (fs3, msgs) => Outcome.success ⟨fs3, w.hostdb, false⟩ msgs
        else Outcome.fatal w1 (mackupMissingMsg mackup_folder)
      else Outcome.fatal w1 dropboxMissingMsg

/-- Answer function confirming every prompt (the literal reply `Yes`). -/
def allYesAns : String → Bool := fun _ => true

/-- Answer function declining every prompt (the literal reply `No`). -/
def allNoAns : String → Bool := fun _ => false

/-- Filesystem after a per-file step, falling back to `d` when the step
raised. -/
def afterFS (o : StepOut) (d : FS) : FS :=
  match o.res with
  | Except.ok fs => fs
  | Except.error _ => d

/-- Whether a per-file step completed without an uncaught exception. -/
def stepOk (o : StepOut) : Bool :=
  match o.res with
  | Except.ok _ => true
  | Except.error _ => false

/-- Empty filesystem. -/
def fsEmpty : FS := ⟨fun _ => none, fun _ => "", 0⟩

/-- Sample state: the home-side file `/h/a` is a regular file with content
`X`; nothing else exists. -/
def fsHomeOnly : FS :=
  ⟨fun p => if p = "/h/a" then some (Node.file 0) else none,
   fun i => if i = 0 then "X" else "", 1⟩

/-- Sample state: home-side `/h/a` is a regular file with content `X` and
the shared-side path `/m/a` is a dangling symbolic link to `/t`. -/
def fsSharedDangling : FS :=
  ⟨fun p => if p = "/h/a" then some (Node.file 0)
            else if p = "/m/a" then some (Node.link "/t") else none,
   fun i => if i = 0 then "X" else "", 1⟩

/-- Sample state: home-side `/h/a` has content `X`, shared-side `/m/a` is
an independent regular file with content `Y` (a conflict). -/
def fsConflict : FS :=
  ⟨fun p => if p = "/h/a" then some (Node.file 0)
            else if p = "/m/a" then some (Node.file 1) else none,
   fun i => if i = 0 then "X" else if i = 1 then "Y" else "", 2⟩

/-- Sample state: home-side `/h/a` is a symbolic link to the regular file
`/t` (content `X`), and shared-side `/m/a` is an independent regular file
with content `Y`. -/
def fsHomeLinkConflict : FS :=
  ⟨fun p => if p = "/h/a" then some (Node.link "/t")
            else if p = "/t" then some (Node.file 0)
            else if p = "/m/a" then some (Node.file 1) else none,
   fun i => if i = 0 then "X" else if i = 1 then "Y" else "", 2⟩

/-- Sample state: home-side `/h/a` is a symbolic link to the regular file
`/t` (content `X`); no shared-side copy. -/
def fsHomeLinkOnly : FS :=
  ⟨fun p => if p = "/h/a" then some (Node.link "/t")
            else if p = "/t" then some (Node.file 0) else none,
   fun i => if i = 0 then "X" else "", 1⟩

/-- Sample state: home-side `/h/a` is a dangling symbolic link and the
shared-side copy `/m/a` is a regular file with content `Y`. -/
def fsDanglingHome : FS :=
  ⟨fun p => if p = "/h/a" then some (Node.link "/nowhere")
            else if p = "/m/a" then some (Node.file 0) else none,
   fun i => if i = 0 then "Y" else "", 1⟩

/-- Sample state: only the shared-side copy `/m/a` exists, a regular file
with content `Y`. -/
def fsSharedOnly : FS :=
  ⟨fun p => if p = "/m/a" then some (Node.file 0) else none,
   fun i => if i = 0 then "Y" else "", 1⟩

/-- Host.db content whose second token decodes to `/d`. -/
def hostdbOk : Option String := some "h L2Q="

/-- Sample state for whole-program runs: the Dropbox folder `/d` and its
`Mackup` subfolder exist, nothing else. -/
def fsMainReady : FS :=
  ⟨fun p => if p = "/d" then some Node.dir
            else if p = "/d/Mackup" then some Node.dir else none,
   fun _ => "", 0⟩

/-- Sample state for whole-program runs: the Dropbox folder `/d` exists
but its `Mackup` subfolder does not. -/
def fsMainNoMackup : FS :=
  ⟨fun p => if p = "/d" then some Node.dir else none, fun _ => "", 0⟩

/-! Helper lemmas about the filesystem model. -/

theorem delEntry_entries (fs : FS) (q p : String) :
    (delEntry fs q).entries p = if p = q then none else fs.entries p := rfl

theorem setEntry_entries (fs : FS) (q : String) (n : Node) (p : String) :
    (setEntry fs q n).entries p = if p = q then some n else fs.entries p := rfl

theorem resolveFile_file {fs : FS} {p : String} {i : Nat} (fuel : Nat)
    (h : fs.entries p = some (Node.file i)) :
    resolveFile fs fuel p = some (i, fs.inodes i) := by
  unfold resolveFile
  rw [h]

theorem resolveFile_link {fs : FS} {p t : String} (fuel : Nat)
    (h : fs.entries p = some (Node.link t)) :
    resolveFile fs (fuel + 1) p = resolveFile fs fuel t := by
  conv_lhs => unfold resolveFile
  rw [h]

theorem resolveFile_link_zero {fs : FS} {p t : String}
    (h : fs.entries p = some (Node.link t)) :
    resolveFile fs 0 p = none := by
  unfold resolveFile
  rw [h]

theorem resolveFile_none {fs : FS} {p : String} (fuel : Nat)
    (h : fs.entries p = none) :
    resolveFile fs fuel p = none := by
  unfold resolveFile
  rw [h]

theorem resolveFile_dir {fs : FS} {p : String} (fuel : Nat)
    (h : fs.entries p = some Node.dir) :
    resolveFile fs fuel p = none := by
  unfold resolveFile
  rw [h]

theorem MAXLINKS_succ : MAXLINKS = 39 + 1 := rfl

/-- The content returned by resolution is the inode table at the returned
inode. -/
theorem resolveFile_content {fs : FS} :
    ∀ fuel p i c, resolveFile fs fuel p = some (i, c) → c = fs.inodes i := by
  intro fuel
  induction fuel with
  | zero =>
    intro p i c h
    cases he : fs.entries p with
    | none => rw [resolveFile_none 0 he] at h; exact absurd h (by simp)
    | some nd =>
      cases nd with
      | file i' =>
        rw [resolveFile_file 0 he] at h
        simp only [Option.some.injEq, Prod.mk.injEq] at h
        rw [← h.2, h.1]
      | link t => rw [resolveFile_link_zero he] at h; exact absurd h (by simp)
      | dir => rw [resolveFile_dir 0 he] at h; exact absurd h (by simp)
  | succ fuel' ih =>
    intro p i c h
    cases he : fs.entries p with
    | none => rw [resolveFile_none _ he] at h; exact absurd h (by simp)
    | some nd =>
      cases nd with
      | file i' =>
        rw [resolveFile_file _ he] at h
        simp only [Option.some.injEq, Prod.mk.injEq] at h
        rw [← h.2, h.1]
      | link t =>
        rw [resolveFile_link fuel' he] at h
        exact ih t i c h
      | dir => rw [resolveFile_dir _ he] at h; exact absurd h (by simp)

/-- A path that resolves has a file or link entry of its own. -/
theorem resolveFile_entry {fs : FS} {fuel : Nat} {p : String} {r : Nat × String}
    (h : resolveFile fs fuel p = some r) :
    (∃ i, fs.entries p = some (Node.file i)) ∨ ∃ t, fs.entries p = some (Node.link t) := by
  cases he : fs.entries p with
  | none => rw [resolveFile_none fuel he] at h; exact absurd h (by simp)
  | some nd =>
    cases nd with
    | file i => exact Or.inl ⟨i, rfl⟩
    | link t => exact Or.inr ⟨t, rfl⟩
    | dir => rw [resolveFile_dir fuel he] at h; exact absurd h (by simp)

/-- Removing an entry cannot create new resolutions: whatever resolves in
the smaller filesystem resolved identically before. -/
theorem resolveFile_delEntry {fs : FS} {q : String} :
    ∀ fuel p r, resolveFile (delEntry fs q) fuel p = some r → resolveFile fs fuel p = some r := by
  intro fuel
  induction fuel with
  | zero =>
    intro p r h
    by_cases hpq : p = q
    · rw [resolveFile_none 0 (by rw [delEntry_entries, if_pos hpq])] at h
      exact absurd h (by simp)
    · have he : (delEntry fs q).entries p = fs.entries p := by
        rw [delEntry_entries, if_neg hpq]
      cases hfe : fs.entries p with
      | none =>
        rw [resolveFile_none 0 (he.trans hfe)] at h; exact absurd h (by simp)
      | some nd =>
        cases nd with
        | file i =>
          rw [resolveFile_file 0 (he.trans hfe)] at h
          rw [resolveFile_file 0 hfe]
          exact h
        | link t =>
          rw [resolveFile_link_zero (he.trans hfe)] at h; exact absurd h (by simp)
        | dir =>
          rw [resolveFile_dir 0 (he.trans hfe)] at h; exact absurd h (by simp)
  | succ fuel' ih =>
    intro p r h
    by_cases hpq : p = q
    · rw [resolveFile_none _ (by rw [delEntry_entries, if_pos hpq])] at h
      exact absurd h (by simp)
    · have he : (delEntry fs q).entries p = fs.entries p := by
        rw [delEntry_entries, if_neg hpq]
      cases hfe : fs.entries p with
      | none =>
        rw [resolveFile_none _ (he.trans hfe)] at h; exact absurd h (by simp)
      | some nd =>
        cases nd with
        | file i =>
          rw [resolveFile_file _ (he.trans hfe)] at h
          rw [resolveFile_file _ hfe]
          exact h
        | link t =>
          rw [resolveFile_link fuel' (he.trans hfe)] at h
          rw [resolveFile_link fuel' hfe]
          exact ih t r h
        | dir =>
          rw [resolveFile_dir _ (he.trans hfe)] at h; exact absurd h (by simp)

/-- Removing a regular-file entry at `q` does not disturb the resolution of
a path whose inode differs from the one at `q`: such a resolution chain
cannot pass through `q`. -/
theorem resolveFile_delEntry_ne {fs : FS} {q : String} {j : Nat}
    (hq : fs.entries q = some (Node.file j)) :
    ∀ fuel p i c, resolveFile fs fuel p = some (i, c) → i ≠ j →
      resolveFile (delEntry fs q) fuel p = some (i, c) := by
  intro fuel
  induction fuel with
  | zero =>
    intro p i c h hij
    cases hfe : fs.entries p with
    | none => rw [resolveFile_none 0 hfe] at h; exact absurd h (by simp)
    | some nd =>
      cases nd with
      | file i' =>
        rw [resolveFile_file 0 hfe] at h
        simp only [Option.some.injEq, Prod.mk.injEq] at h
        have hpq : p ≠ q := by
          intro hc
          rw [hc, hq] at hfe
          injection hfe with h1
          injection h1 with h2
          exact hij (h.1 ▸ h2.symm ▸ rfl)
        have : (delEntry fs q).entries p = some (Node.file i') := by
          rw [delEntry_entries, if_neg hpq]; exact hfe
        rw [resolveFile_file 0 this]
        simp only [Option.some.injEq, Prod.mk.injEq]
        exact ⟨h.1, h.2⟩
      | link t => rw [resolveFile_link_zero hfe] at h; exact absurd h (by simp)
      | dir => rw [resolveFile_dir 0 hfe] at h; exact absurd h (by simp)
  | succ fuel' ih =>
    intro p i c h hij
    cases hfe : fs.entries p with
    | none => rw [resolveFile_none _ hfe] at h; exact absurd h (by simp)
    | some nd =>
      cases nd with
      | file i' =>
        rw [resolveFile_file _ hfe] at h
        simp only [Option.some.injEq, Prod.mk.injEq] at h
        have hpq : p ≠ q := by
          intro hc
          rw [hc, hq] at hfe
          injection hfe with h1
          injection h1 with h2
          exact hij (h.1 ▸ h2.symm ▸ rfl)
        have : (delEntry fs q).entries p = some (Node.file i') := by
          rw [delEntry_entries, if_neg hpq]; exact hfe
        rw [resolveFile_file _ this]
        simp only [Option.some.injEq, Prod.mk.injEq]
        exact ⟨h.1, h.2⟩
      | link t =>
        have hpq : p ≠ q := by
          intro hc
          rw [hc, hq] at hfe
          exact Node.noConfusion (Option.some.inj hfe)
        have : (delEntry fs q).entries p = some (Node.link t) := by
          rw [delEntry_entries, if_neg hpq]; exact hfe
        rw [resolveFile_link fuel' this]
        rw [resolveFile_link fuel' hfe] at h
        exact ih t i c h hij
      | dir => rw [resolveFile_dir _ hfe] at h; exact absurd h (by simp)

theorem islink_iff {fs : FS} {p : String} :
    islink fs p = true ↔ ∃ t, fs.entries p = some (Node.link t) := by
  unfold islink
  cases he : fs.entries p with
  | none => simp
  | some nd => cases nd <;> simp

theorem islink_file {fs : FS} {p : String} {i : Nat}
    (h : fs.entries p = some (Node.file i)) : islink fs p = false := by
  unfold islink
  rw [h]

theorem islink_none {fs : FS} {p : String}
    (h : fs.entries p = none) : islink fs p = false := by
  unfold islink
  rw [h]

theorem resolveWrite_noneEntry {fs : FS} {p : String} (fuel : Nat)
    (h : fs.entries p = none) : resolveWrite fs fuel p = some p := by
  unfold resolveWrite
  rw [h]

theorem isfile_of_entry_file {fs : FS} {p : String} {i : Nat}
    (h : fs.entries p = some (Node.file i)) : isfile fs p = true := by
  unfold isfile
  rw [resolveFile_file MAXLINKS h]
  rfl

theorem isfile_none {fs : FS} {p : String}
    (h : fs.entries p = none) : isfile fs p = false := by
  unfold isfile
  rw [resolveFile_none MAXLINKS h]
  rfl

theorem samefile_eq {fs : FS} {p q : String} {i j : Nat} {ci cj : String}
    (hp : resolveFile fs MAXLINKS p = some (i, ci))
    (hq : resolveFile fs MAXLINKS q = some (j, cj)) :
    samefile fs p q = (i == j) := by
  unfold samefile
  rw [hp, hq]

theorem delete_file {fs : FS} {p : String} {i : Nat}
    (h : fs.entries p = some (Node.file i)) :
    delete fs p = Except.ok (delEntry fs p) := by
  unfold delete
  rw [h]

theorem delete_link {fs : FS} {p t : String}
    (h : fs.entries p = some (Node.link t)) :
    delete fs p = Except.ok (delEntry fs p) := by
  unfold delete
  rw [h]

theorem delete_ok_of_entry {fs : FS} {p : String}
    (h : (∃ i, fs.entries p = some (Node.file i)) ∨ ∃ t, fs.entries p = some (Node.link t)) :
    delete fs p = Except.ok (delEntry fs p) := by
  obtain ⟨i, hi⟩ | ⟨t, ht⟩ := h
  · exact delete_file hi
  · exact delete_link ht

theorem symlinkOp_none {fs : FS} (target : String) {p : String}
    (h : fs.entries p = none) :
    symlinkOp fs target p = Except.ok (setEntry fs p (Node.link target)) := by
  unfold symlinkOp
  rw [h]

theorem copy_to_absent {fs : FS} {src dst : String} {i : Nat} {c : String}
    (hsrc : resolveFile fs MAXLINKS src = some (i, c))
    (hdst : fs.entries dst = none) :
    copy fs src dst
      = Except.ok { entries := fun q => if q = dst then some (Node.file fs.nextIno) else fs.entries q,
                    inodes := fun j => if j = fs.nextIno then c else fs.inodes j,
                    nextIno := fs.nextIno + 1 } := by
  unfold copy
  rw [hsrc, resolveWrite_noneEntry MAXLINKS hdst]
  simp only [hdst]

/-- Characterization of one backup iteration when the two computed paths
are distinct, the home-side file exists, the shared-side path is absent or
a plain regular file, and every prompt is confirmed: either the guard
rejects the file because it is already correctly backed up (and nothing at
all happens), or the iteration announces the file and ends with the home
path a symbolic link to the shared path, which holds a fresh regular file
carrying the content the home path resolved to, every other path and inode
untouched. -/
theorem backupFile_spec (fs : FS) (home mf f : String) (ans : String → Bool)
    (hne : joinPath home f ≠ joinPath mf f)
    (hh : isfile fs (joinPath home f) = true)
    (hsp : fs.entries (joinPath mf f) = none ∨ ∃ j, fs.entries (joinPath mf f) = some (Node.file j))
    (hy : ∀ q, ans q = true) :
    (backupFile fs home mf f ans = ⟨Except.ok fs, [], []⟩
      ∧ islink fs (joinPath home f) = true
      ∧ (∃ j, fs.entries (joinPath mf f) = some (Node.file j))
      ∧ samefile fs (joinPath home f) (joinPath mf f) = true)
    ∨ (∃ i c,
        resolveFile fs MAXLINKS (joinPath home f) = some (i, c)
        ∧ stepOk (backupFile fs home mf f ans) = true
        ∧ (backupFile fs home mf f ans).msgs = ["Backing up " ++ f ++ "..."]
        ∧ (afterFS (backupFile fs home mf f ans) fs).entries (joinPath home f) = some (Node.link (joinPath mf f))
        ∧ (afterFS (backupFile fs home mf f ans) fs).entries (joinPath mf f) = some (Node.file fs.nextIno)
        ∧ (afterFS (backupFile fs home mf f ans) fs).inodes fs.nextIno = c
        ∧ (∀ q, q ≠ joinPath home f → q ≠ joinPath mf f →
            (afterFS (backupFile fs home mf f ans) fs).entries q = fs.entries q)
        ∧ (∀ j, j ≠ fs.nextIno → (afterFS (backupFile fs home mf f ans) fs).inodes j = fs.inodes j)) := by
  have hres' : ∃ r, resolveFile fs MAXLINKS (joinPath home f) = some r := by
    rw [isfile, Option.isSome_iff_exists] at hh
    exact hh
  obtain ⟨⟨i, c⟩, hres⟩ := hres'
  have hne' : joinPath mf f ≠ joinPath home f := Ne.symm hne
  cases hguard : backupNeeded fs (joinPath home f) (joinPath mf f) with
  | false =>
    have hh' : isfile fs (joinPath home f) = true := by
      rw [isfile, hres]
      rfl
    have hinner : islink fs (joinPath home f) = true
        ∧ isfile fs (joinPath mf f) = true
        ∧ islink fs (joinPath mf f) = false
        ∧ samefile fs (joinPath home f) (joinPath mf f) = true := by
      unfold backupNeeded at hguard
      rw [hh'] at hguard
      simp only [Bool.true_and, Bool.not_eq_false', Bool.and_eq_true, Bool.not_eq_true'] at hguard
      exact ⟨hguard.1.1.1, hguard.1.1.2, hguard.1.2, hguard.2⟩
    obtain ⟨hl, hfsp, _, hsame⟩ := hinner
    have hj : ∃ j, fs.entries (joinPath mf f) = some (Node.file j) := by
      cases hsp with
      | inl hn => rw [isfile_none hn] at hfsp; exact absurd hfsp (by simp)
      | inr hj => exact hj
    refine Or.inl ⟨?_, hl, hj, hsame⟩
    unfold backupFile
    simp only [hguard, Bool.false_eq_true, if_false]
  | true =>
    cases hspf : isfile fs (joinPath mf f) with
    | true =>
      have hj : ∃ j, fs.entries (joinPath mf f) = some (Node.file j) := by
        cases hsp with
        | inl hn => rw [isfile_none hn] at hspf; exact absurd hspf (by simp)
        | inr h => exact h
      obtain ⟨j, hj⟩ := hj
      have hans : ans (backupQuestion (joinPath mf f)) = true := hy _
      have hdel1 : delete fs (joinPath mf f) = Except.ok (delEntry fs (joinPath mf f)) :=
        delete_file hj
      have hres1 : resolveFile (delEntry fs (joinPath mf f)) MAXLINKS (joinPath home f) = some (i, c) := by
        cases hl : islink fs (joinPath home f) with
        | false =>
          obtain hfile | hlink := resolveFile_entry hres
          · obtain ⟨i', hi'⟩ := hfile
            rw [resolveFile_file MAXLINKS hi'] at hres
            have h2 : (delEntry fs (joinPath mf f)).entries (joinPath home f) = some (Node.file i') := by
              rw [delEntry_entries, if_neg hne]
              exact hi'
            rw [resolveFile_file MAXLINKS h2]
            exact hres
          · obtain ⟨t, ht⟩ := hlink
            have h3 := islink_iff.mpr ⟨t, ht⟩
            rw [hl] at h3
            exact absurd h3 (by simp)
        | true =>
          have hlspB : islink fs (joinPath mf f) = false := islink_file hj
          have hsame : samefile fs (joinPath home f) (joinPath mf f) = false := by
            unfold backupNeeded at hguard
            rw [hh, hl, hspf, hlspB] at hguard
            simpa using hguard
          have hrsp : resolveFile fs MAXLINKS (joinPath mf f) = some (j, fs.inodes j) :=
            resolveFile_file MAXLINKS hj
          have hij : i ≠ j :=
            beq_eq_false_iff_ne.mp (((samefile_eq hres hrsp).symm).trans hsame)
          exact resolveFile_delEntry_ne hj MAXLINKS _ i c hres hij
      have hAnone : (delEntry fs (joinPath mf f)).entries (joinPath mf f) = none := by
        rw [delEntry_entries, if_pos rfl]
      have hcopy := copy_to_absent hres1 hAnone
      have hBhp : ({ entries := fun q => if q = joinPath mf f then some (Node.file (delEntry fs (joinPath mf f)).nextIno) else (delEntry fs (joinPath mf f)).entries q,
                     inodes := fun j => if j = (delEntry fs (joinPath mf f)).nextIno then c else (delEntry fs (joinPath mf f)).inodes j,
                     nextIno := (delEntry fs (joinPath mf f)).nextIno + 1 } : FS).entries (joinPath home f)
            = fs.entries (joinPath home f) := by
        simp only [if_neg hne]
        rw [delEntry_entries, if_neg hne]
      have hdel2 : delete ({ entries := fun q => if q = joinPath mf f then some (Node.file (delEntry fs (joinPath mf f)).nextIno) else (delEntry fs (joinPath mf f)).entries q,
                             inodes := fun j => if j = (delEntry fs (joinPath mf f)).nextIno then c else (delEntry fs (joinPath mf f)).inodes j,
                             nextIno := (delEntry fs (joinPath mf f)).nextIno + 1 } : FS) (joinPath home f)
          = Except.ok (delEntry ({ entries := fun q => if q = joinPath mf f then some (Node.file (delEntry fs (joinPath mf f)).nextIno) else (delEntry fs (joinPath mf f)).entries q,
                                   inodes := fun j => if j = (delEntry fs (joinPath mf f)).nextIno then c else (delEntry fs (joinPath mf f)).inodes j,
                                   nextIno := (delEntry fs (joinPath mf f)).nextIno + 1 } : FS) (joinPath home f)) := by
        apply delete_ok_of_entry
        rw [hBhp]
        exact resolveFile_entry hres
      have hCnone : (delEntry ({ entries := fun q => if q = joinPath mf f then some (Node.file (delEntry fs (joinPath mf f)).nextIno) else (delEntry fs (joinPath mf f)).entries q,
                                 inodes := fun j => if j = (delEntry fs (joinPath mf f)).nextIno then c else (delEntry fs (joinPath mf f)).inodes j,
                                 nextIno := (delEntry fs (joinPath mf f)).nextIno + 1 } : FS) (joinPath home f)).entries (joinPath home f) = none := by
        rw [delEntry_entries, if_pos rfl]
      have hsym := symlinkOp_none (joinPath mf f) hCnone
      have hstep : backupFile fs home mf f ans
          = ⟨Except.ok (setEntry (delEntry ({ entries := fun q => if q = joinPath mf f then some (Node.file (delEntry fs (joinPath mf f)).nextIno) else (delEntry fs (joinPath mf f)).entries q,
                                              inodes := fun j => if j = (delEntry fs (joinPath mf f)).nextIno then c else (delEntry fs (joinPath mf f)).inodes j,
                                              nextIno := (delEntry fs (joinPath mf f)).nextIno + 1 } : FS) (joinPath home f)) (joinPath home f) (Node.link (joinPath mf f))),
             ["Backing up " ++ f ++ "..."], [backupQuestion (joinPath mf f)]⟩ := by
        unfold backupFile
        simp only [hguard, hspf, hans, hdel1, hcopy, hdel2, hsym, if_true]
      refine Or.inr ⟨i, c, hres, ?_, ?_, ?_, ?_, ?_, ?_, ?_⟩
      · rw [hstep]
        rfl
      · rw [hstep]
      · rw [hstep]
        simp [afterFS, setEntry_entries]
      · rw [hstep]
        simp [afterFS, setEntry_entries, delEntry_entries, delEntry, hne']
      · rw [hstep]
        simp [afterFS, setEntry, delEntry]
      · rw [hstep]
        intro q h1 h2
        simp [afterFS, setEntry_entries, delEntry_entries, h1, h2]
      · rw [hstep]
        intro j' hj'
        simp [afterFS, setEntry, delEntry, hj']
    | false =>
      have hspnone : fs.entries (joinPath mf f) = none := by
        cases hsp with
        | inl hn => exact hn
        | inr h =>
          obtain ⟨j, hj⟩ := h
          rw [isfile_of_entry_file hj] at hspf
          exact absurd hspf (by simp)
      have hcopy := copy_to_absent hres hspnone
      have hBhp : ({ entries := fun q => if q = joinPath mf f then some (Node.file fs.nextIno) else fs.entries q,
                     inodes := fun j => if j = fs.nextIno then c else fs.inodes j,
                     nextIno := fs.nextIno + 1 } : FS).entries (joinPath home f)
            = fs.entries (joinPath home f) := by
        simp only [if_neg hne]
      have hdel2 : delete ({ entries := fun q => if q = joinPath mf f then some (Node.file fs.nextIno) else fs.entries q,
                             inodes := fun j => if j = fs.nextIno then c else fs.inodes j,
                             nextIno := fs.nextIno + 1 } : FS) (joinPath home f)
          = Except.ok (delEntry ({ entries := fun q => if q = joinPath mf f then some (Node.file fs.nextIno) else fs.entries q,
                                   inodes := fun j => if j = fs.nextIno then c else fs.inodes j,
                                   nextIno := fs.nextIno + 1 } : FS) (joinPath home f)) := by
        apply delete_ok_of_entry
        rw [hBhp]
        exact resolveFile_entry hres
      have hCnone : (delEntry ({ entries := fun q => if q = joinPath mf f then some (Node.file fs.nextIno) else fs.entries q,
                                 inodes := fun j => if j = fs.nextIno then c else fs.inodes j,
                                 nextIno := fs.nextIno + 1 } : FS) (joinPath home f)).entries (joinPath home f) = none := by
        rw [delEntry_entries, if_pos rfl]
      have hsym := symlinkOp_none (joinPath mf f) hCnone
      have hstep : backupFile fs home mf f ans
          = ⟨Except.ok (setEntry (delEntry ({ entries := fun q => if q = joinPath mf f then some (Node.file fs.nextIno) else fs.entries q,
                                              inodes := fun j => if j = fs.nextIno then c else fs.inodes j,
                                              nextIno := fs.nextIno + 1 } : FS) (joinPath home f)) (joinPath home f) (Node.link (joinPath mf f))),
             ["Backing up " ++ f ++ "..."], []⟩ := by
        unfold backupFile
        simp only [hguard, hspf, hcopy, hdel2, hsym, if_true, Bool.false_eq_true, if_false]
      refine Or.inr ⟨i, c, hres, ?_, ?_, ?_, ?_, ?_, ?_, ?_⟩
      · rw [hstep]
        rfl
      · rw [hstep]
      · rw [hstep]
        simp [afterFS, setEntry_entries]
      · rw [hstep]
        simp [afterFS, setEntry_entries, delEntry_entries, hne']
      · rw [hstep]
        simp [afterFS, setEntry, delEntry]
      · rw [hstep]
        intro q h1 h2
        simp [afterFS, setEntry_entries, delEntry_entries, h1, h2]
      · rw [hstep]
        intro j' hj'
        simp [afterFS, setEntry, delEntry, hj']

theorem samefile_isfile_right {fs : FS} {p q : String}
    (h : samefile fs p q = true) : isfile fs q = true := by
  unfold samefile at h
  cases hp : resolveFile fs MAXLINKS p with
  | none => rw [hp] at h; exact absurd h (by simp)
  | some a =>
    cases hq : resolveFile fs MAXLINKS q with
    | none => rw [hp, hq] at h; exact absurd h (by simp)
    | some b => rw [isfile, hq]; rfl

/-- C4: backup performs no filesystem mutation, emits no message and asks
no question for a tracked path when the home-side path does not exist as a
regular file, or when the home-side path is already a symbolic link whose
target is the shared-side path, the shared-side path is a regular file that
is not itself a symbolic link, and the two paths resolve to the same
underlying file. -/
theorem backup_skip_conditions_noop (fs : FS) (home mf f : String) (ans : String → Bool)
    (h : isfile fs (joinPath home f) = false
      ∨ (fs.entries (joinPath home f) = some (Node.link (joinPath mf f))
         ∧ isfile fs (joinPath mf f) = true
         ∧ islink fs (joinPath mf f) = false
         ∧ samefile fs (joinPath home f) (joinPath mf f) = true)) :
    backupFile fs home mf f ans = ⟨Except.ok fs, [], []⟩ := by
  have hguard : backupNeeded fs (joinPath home f) (joinPath mf f) = false := by
    unfold backupNeeded
    obtain hf | ⟨hl, hfsp, hlsp, hsame⟩ := h
    · rw [hf]
      rfl
    · rw [islink_iff.mpr ⟨_, hl⟩, hfsp, hlsp, hsame]
      simp
  unfold backupFile
  simp only [hguard, Bool.false_eq_true, if_false]

theorem backup_skip_conditions_noop_witness :
    backupFile fsEmpty "/h" "/m" "a" allYesAns = ⟨Except.ok fsEmpty, [], []⟩ :=
  backup_skip_conditions_noop fsEmpty "/h" "/m" "a" allYesAns (Or.inl rfl)

/-- C5: restore performs no action (no mutation, no message, no prompt)
when the shared-side path does not exist as a regular file or when the
home-side path exists and resolves to the same underlying file as the
shared-side path; and when the shared-side copy exists while the home-side
path is absent, restore creates the symbolic link directly with no
prompt. -/
theorem restore_skip_and_direct_link (fs : FS) (home mf f : String) (ans : String → Bool) :
    ((isfile fs (joinPath mf f) = false
        ∨ samefile fs (joinPath mf f) (joinPath home f) = true) →
      restoreFile fs home mf f ans = ⟨Except.ok fs, [], []⟩)
    ∧ (isfile fs (joinPath mf f) = true → fs.entries (joinPath home f) = none →
      restoreFile fs home mf f ans
        = ⟨Except.ok (setEntry fs (joinPath home f) (Node.link (joinPath mf f))),
           ["Restoring " ++ f ++ "..."], []⟩) := by
  constructor
  · intro h
    have hguard : restoreNeeded fs (joinPath mf f) (joinPath home f) = false := by
      unfold restoreNeeded
      obtain hf | hsame := h
      · rw [hf]
        rfl
      · rw [samefile_isfile_right hsame, hsame]
        simp
    unfold restoreFile
    simp only [hguard, Bool.false_eq_true, if_false]
  · intro hsp hhome
    have hhf : isfile fs (joinPath home f) = false := isfile_none hhome
    have hguard : restoreNeeded fs (joinPath mf f) (joinPath home f) = true := by
      unfold restoreNeeded
      rw [hsp, hhf]
      simp
    have hsym := symlinkOp_none (joinPath mf f) hhome
    unfold restoreFile
    simp only [hguard, hhf, hsym, if_true, Bool.false_eq_true, if_false]

theorem restore_skip_and_direct_link_witness :
    restoreFile fsEmpty "/h" "/m" "a" allYesAns = ⟨Except.ok fsEmpty, [], []⟩
    ∧ restoreFile fsSharedOnly "/h" "/m" "a" allYesAns
        = ⟨Except.ok (setEntry fsSharedOnly "/h/a" (Node.link "/m/a")),
           ["Restoring a..."], []⟩ := by
  constructor
  · exact (restore_skip_and_direct_link fsEmpty "/h" "/m" "a" allYesAns).1 (Or.inl rfl)
  · exact (restore_skip_and_direct_link fsSharedOnly "/h" "/m" "a" allYesAns).2 rfl rfl

/-- C9: when the home-side path is a dangling symbolic link and the
shared-side copy is a regular file, restore neither skips nor prompts: it
announces the file, takes the no-home-file branch, and the symbolic-link
creation raises an uncaught filesystem error because the home-side entry
already exists. -/
theorem restore_dangling_home_link_raises (fs : FS) (home mf f t : String) (ans : String → Bool) (j : Nat)
    (hl : fs.entries (joinPath home f) = some (Node.link t))
    (hhf : isfile fs (joinPath home f) = false)
    (hsp : fs.entries (joinPath mf f) = some (Node.file j)) :
    restoreFile fs home mf f ans
      = ⟨Except.error PyExc.osErr, ["Restoring " ++ f ++ "..."], []⟩ := by
  have hspf : isfile fs (joinPath mf f) = true := isfile_of_entry_file hsp
  have hguard : restoreNeeded fs (joinPath mf f) (joinPath home f) = true := by
    unfold restoreNeeded
    rw [hspf, hhf]
    simp
  have hsym : symlinkOp fs (joinPath mf f) (joinPath home f) = Except.error PyExc.osErr := by
    unfold symlinkOp
    rw [hl]
  unfold restoreFile
  simp only [hguard, hhf, hsym, if_true, Bool.false_eq_true, if_false]

theorem restore_dangling_home_link_raises_witness :
    restoreFile fsDanglingHome "/h" "/m" "a" allYesAns
      = ⟨Except.error PyExc.osErr, ["Restoring a..."], []⟩ :=
  restore_dangling_home_link_raises fsDanglingHome "/h" "/m" "a" "/nowhere" allYesAns 0 rfl rfl rfl

/-- C2: when every confirmation is declined, a backup iteration on a path
whose shared-side copy exists leaves the filesystem byte-for-byte unchanged
(no delete, copy or symlink), and a restore iteration on a path whose
home-side file exists likewise leaves the filesystem unchanged. -/
theorem decline_leaves_files_unchanged (fs : FS) (home mf f : String) (ans : String → Bool)
    (hno : ∀ q, ans q = false) :
    (isfile fs (joinPath mf f) = true →
      (backupFile fs home mf f ans).res = Except.ok fs)
    ∧ (isfile fs (joinPath home f) = true →
      (restoreFile fs home mf f ans).res = Except.ok fs) := by
  constructor
  · intro hsp
    cases hguard : backupNeeded fs (joinPath home f) (joinPath mf f) with
    | false =>
      unfold backupFile
      simp only [hguard, Bool.false_eq_true, if_false]
    | true =>
      unfold backupFile
      simp only [hguard, hsp, hno, if_true, Bool.false_eq_true, if_false]
  · intro hhp
    cases hguard : restoreNeeded fs (joinPath mf f) (joinPath home f) with
    | false =>
      unfold restoreFile
      simp only [hguard, Bool.false_eq_true, if_false]
    | true =>
      unfold restoreFile
      simp only [hguard, hhp, hno, if_true, Bool.false_eq_true, if_false]

theorem decline_leaves_files_unchanged_witness :
    (backupFile fsConflict "/h" "/m" "a" allNoAns).res = Except.ok fsConflict
    ∧ (restoreFile fsConflict "/h" "/m" "a" allNoAns).res = Except.ok fsConflict := by
  have h := decline_leaves_files_unchanged fsConflict "/h" "/m" "a" allNoAns (fun _ => rfl)
  exact ⟨h.1 rfl, h.2 rfl⟩

/-- C1 counterexample: with the home-side file present and every prompt
confirmed, a backup run over a shared-side path that is a dangling symbolic
link succeeds, yet afterwards the shared-side path is still a symbolic
link, not a regular file — `shutil.copy` wrote through the link. -/
theorem backup_shared_symlink_stays_symlink :
    isfile fsSharedDangling "/h/a" = true
    ∧ stepOk (backupFile fsSharedDangling "/h" "/m" "a" allYesAns) = true
    ∧ islink (afterFS (backupFile fsSharedDangling "/h" "/m" "a" allYesAns) fsSharedDangling) "/m/a" = true :=
  ⟨rfl, rfl, rfl⟩

/-- C1 amended: for a tracked path whose home-side file exists, whose
shared-side path is absent or a plain regular file, and whose two computed
paths are distinct, a successful backup iteration with every prompt
confirmed leaves the home-side path a symbolic link resolved to the same
file as the shared-side path, the shared-side path a regular file, and the
shared-side content equal to the pre-backup home-side content. -/
theorem backup_establishes_link_and_copy (fs : FS) (home mf f : String) (ans : String → Bool) (fs' : FS)
    (hne : joinPath home f ≠ joinPath mf f)
    (hh : isfile fs (joinPath home f) = true)
    (hsp : fs.entries (joinPath mf f) = none ∨ ∃ j, fs.entries (joinPath mf f) = some (Node.file j))
    (hy : ∀ q, ans q = true)
    (hok : (backupFile fs home mf f ans).res = Except.ok fs') :
    islink fs' (joinPath home f) = true
    ∧ (∃ j, fs'.entries (joinPath mf f) = some (Node.file j))
    ∧ samefile fs' (joinPath home f) (joinPath mf f) = true
    ∧ contentAt fs' (joinPath mf f) = contentAt fs (joinPath home f) := by
  rcases backupFile_spec fs home mf f ans hne hh hsp hy with
    ⟨hskip, hl, ⟨j, hj⟩, hsame⟩ | ⟨i, c, hres, hsok, hmsgs, he1, he2, hino, hframe, hiframe⟩
  · have hfs : fs' = fs := by
      rw [hskip] at hok
      have h2 : (Except.ok fs : Except PyExc FS) = Except.ok fs' := hok
      exact (Except.ok.inj h2).symm
    subst hfs
    obtain ⟨⟨i, ci⟩, hrh⟩ : ∃ r, resolveFile fs' MAXLINKS (joinPath home f) = some r := by
      rw [isfile, Option.isSome_iff_exists] at hh
      exact hh
    have hrs : resolveFile fs' MAXLINKS (joinPath mf f) = some (j, fs'.inodes j) :=
      resolveFile_file MAXLINKS hj
    have hij : i = j := by
      have h3 := ((samefile_eq hrh hrs).symm).trans hsame
      simpa using h3
    have hci : ci = fs'.inodes i := resolveFile_content MAXLINKS _ i ci hrh
    refine ⟨hl, ⟨j, hj⟩, hsame, ?_⟩
    unfold contentAt
    rw [hrs, hrh]
    simp [hci, hij]
  · have hfs : afterFS (backupFile fs home mf f ans) fs = fs' := by
      unfold afterFS
      rw [hok]
    rw [hfs] at he1 he2 hino
    have h1 : resolveFile fs' MAXLINKS (joinPath home f) = some (fs.nextIno, fs'.inodes fs.nextIno) := by
      rw [MAXLINKS_succ, resolveFile_link 39 he1, resolveFile_file 39 he2]
    have h2 : resolveFile fs' MAXLINKS (joinPath mf f) = some (fs.nextIno, fs'.inodes fs.nextIno) :=
      resolveFile_file MAXLINKS he2
    refine ⟨islink_iff.mpr ⟨_, he1⟩, ⟨fs.nextIno, he2⟩, ?_, ?_⟩
    · rw [samefile_eq h1 h2]
      simp
    · unfold contentAt
      rw [h2, hres]
      simp [hino]

theorem backup_establishes_link_and_copy_witness :
    islink (afterFS (backupFile fsHomeOnly "/h" "/m" "a" allYesAns) fsHomeOnly) "/h/a" = true
    ∧ (∃ j, (afterFS (backupFile fsHomeOnly "/h" "/m" "a" allYesAns) fsHomeOnly).entries "/m/a" = some (Node.file j))
    ∧ samefile (afterFS (backupFile fsHomeOnly "/h" "/m" "a" allYesAns) fsHomeOnly) "/h/a" "/m/a" = true
    ∧ contentAt (afterFS (backupFile fsHomeOnly "/h" "/m" "a" allYesAns) fsHomeOnly) "/m/a"
        = contentAt fsHomeOnly "/h/a" :=
  backup_establishes_link_and_copy fsHomeOnly "/h" "/m" "a" allYesAns
    (afterFS (backupFile fsHomeOnly "/h" "/m" "a" allYesAns) fsHomeOnly)
    (by decide) rfl (Or.inl rfl) (fun _ => rfl) rfl

/-- C3 counterexample: with a dangling symbolic link at the shared-side
path, the first backup run succeeds, yet an immediately repeated run with
no filesystem change in between announces the same file again — the
already-backed-up skip condition fails because the shared-side path is
still a symbolic link. -/
theorem backup_not_idempotent_on_shared_symlink :
    stepOk (backupFile fsSharedDangling "/h" "/m" "a" allYesAns) = true
    ∧ (backupFile (afterFS (backupFile fsSharedDangling "/h" "/m" "a" allYesAns) fsSharedDangling)
        "/h" "/m" "a" allYesAns).msgs = ["Backing up a..."] :=
  ⟨rfl, rfl⟩

/-- C3 amended: when the shared-side path is absent or a plain regular
file before the first run, the two computed paths are distinct, and a
first backup iteration with every prompt confirmed succeeds, then a second
iteration on the unchanged result performs no mutation, prints nothing and
asks nothing, whatever its prompt answers. -/
theorem backup_idempotent_second_run_noop (fs : FS) (home mf f : String) (ans ans2 : String → Bool) (fs1 : FS)
    (hne : joinPath home f ≠ joinPath mf f)
    (hsp : fs.entries (joinPath mf f) = none ∨ ∃ j, fs.entries (joinPath mf f) = some (Node.file j))
    (hy : ∀ q, ans q = true)
    (hok : (backupFile fs home mf f ans).res = Except.ok fs1) :
    backupFile fs1 home mf f ans2 = ⟨Except.ok fs1, [], []⟩ := by
  cases hh : isfile fs (joinPath home f) with
  | false =>
    have hguard : backupNeeded fs (joinPath home f) (joinPath mf f) = false := by
      unfold backupNeeded
      rw [hh]
      rfl
    have hfs1 : fs1 = fs := by
      unfold backupFile at hok
      simp only [hguard, Bool.false_eq_true, if_false] at hok
      exact (Except.ok.inj hok).symm
    subst hfs1
    unfold backupFile
    simp only [hguard, Bool.false_eq_true, if_false]
  | true =>
    rcases backupFile_spec fs home mf f ans hne hh hsp hy with
      ⟨hskip, hl, ⟨j, hj⟩, hsame⟩ | ⟨i, c, hres, hsok, hmsgs, he1, he2, hino, hframe, hiframe⟩
    · have hfs1 : fs1 = fs := by
        rw [hskip] at hok
        have h2 : (Except.ok fs : Except PyExc FS) = Except.ok fs1 := hok
        exact (Except.ok.inj h2).symm
      subst hfs1
      have hguard : backupNeeded fs1 (joinPath home f) (joinPath mf f) = false := by
        unfold backupNeeded
        rw [hh, hl, isfile_of_entry_file hj, islink_file hj, hsame]
        simp
      unfold backupFile
      simp only [hguard, Bool.false_eq_true, if_false]
    · have hfs1 : afterFS (backupFile fs home mf f ans) fs = fs1 := by
        unfold afterFS
        rw [hok]
      rw [hfs1] at he1 he2
      have h1 : resolveFile fs1 MAXLINKS (joinPath home f) = some (fs.nextIno, fs1.inodes fs.nextIno) := by
        rw [MAXLINKS_succ, resolveFile_link 39 he1, resolveFile_file 39 he2]
      have h2 : resolveFile fs1 MAXLINKS (joinPath mf f) = some (fs.nextIno, fs1.inodes fs.nextIno) :=
        resolveFile_file MAXLINKS he2
      have hguard : backupNeeded fs1 (joinPath home f) (joinPath mf f) = false := by
        unfold backupNeeded
        rw [islink_iff.mpr ⟨_, he1⟩, islink_file he2, samefile_eq h1 h2]
        rw [show isfile fs1 (joinPath mf f) = true from by rw [isfile, h2]; rfl]
        simp
      unfold backupFile
      simp only [hguard, Bool.false_eq_true, if_false]

theorem backup_idempotent_second_run_noop_witness :
    backupFile (afterFS (backupFile fsHomeOnly "/h" "/m" "a" allYesAns) fsHomeOnly) "/h" "/m" "a" allYesAns
      = ⟨Except.ok (afterFS (backupFile fsHomeOnly "/h" "/m" "a" allYesAns) fsHomeOnly), [], []⟩ :=
  backup_idempotent_second_run_noop fsHomeOnly "/h" "/m" "a" allYesAns allYesAns
    (afterFS (backupFile fsHomeOnly "/h" "/m" "a" allYesAns) fsHomeOnly)
    (by decide) (Or.inl rfl) (fun _ => rfl) rfl

/-- C10 counterexample: the home-side path is a symbolic link to the
existing regular file `/t` (content `X`), distinct from the shared-side
copy (content `Y`); with the overwrite prompt declined, backup copies
nothing and changes nothing — the shared-side content is still `Y`. -/
theorem backup_home_symlink_declined_no_copy :
    (backupFile fsHomeLinkConflict "/h" "/m" "a" allNoAns).res = Except.ok fsHomeLinkConflict
    ∧ contentAt fsHomeLinkConflict "/t" = some "X"
    ∧ contentAt fsHomeLinkConflict "/m/a" = some "Y" :=
  ⟨rfl, rfl, rfl⟩

/-- C10 amended: when the home-side path is a symbolic link whose target
is an existing regular file other than the shared-side copy, the
shared-side path is absent or a plain regular file, the two computed paths
are distinct and any overwrite prompt is confirmed, backup does not skip
the file: it announces it, copies the link target's content to the
shared-side path, deletes the symbolic link itself — the target keeps its
entry and content — and replaces the link with one pointing at the
shared-side path. -/
theorem backup_home_symlink_processed (fs : FS) (home mf f t : String) (ans : String → Bool) (i : Nat)
    (hl : fs.entries (joinPath home f) = some (Node.link t))
    (ht : fs.entries t = some (Node.file i))
    (hsp : fs.entries (joinPath mf f) = none
      ∨ ∃ j, fs.entries (joinPath mf f) = some (Node.file j) ∧ j ≠ i)
    (hne : joinPath home f ≠ joinPath mf f)
    (hy : ∀ q, ans q = true) :
    stepOk (backupFile fs home mf f ans) = true
    ∧ (backupFile fs home mf f ans).msgs = ["Backing up " ++ f ++ "..."]
    ∧ (afterFS (backupFile fs home mf f ans) fs).entries (joinPath mf f) = some (Node.file fs.nextIno)
    ∧ (afterFS (backupFile fs home mf f ans) fs).inodes fs.nextIno = fs.inodes i
    ∧ (afterFS (backupFile fs home mf f ans) fs).entries (joinPath home f) = some (Node.link (joinPath mf f))
    ∧ (afterFS (backupFile fs home mf f ans) fs).entries t = some (Node.file i)
    ∧ (afterFS (backupFile fs home mf f ans) fs).inodes i = fs.inodes i := by
  have hh : isfile fs (joinPath home f) = true := by
    rw [isfile, MAXLINKS_succ, resolveFile_link 39 hl, resolveFile_file 39 ht]
    rfl
  have hrh : resolveFile fs MAXLINKS (joinPath home f) = some (i, fs.inodes i) := by
    rw [MAXLINKS_succ, resolveFile_link 39 hl, resolveFile_file 39 ht]
  have hsp' : fs.entries (joinPath mf f) = none
      ∨ ∃ j, fs.entries (joinPath mf f) = some (Node.file j) := by
    rcases hsp with hn | ⟨j, hj, _⟩
    · exact Or.inl hn
    · exact Or.inr ⟨j, hj⟩
  rcases backupFile_spec fs home mf f ans hne hh hsp' hy with
    ⟨hskip, hl2, ⟨j, hj⟩, hsame⟩ | ⟨i', c, hres, hsok, hmsgs, he1, he2, hino, hframe, hiframe⟩
  · exfalso
    rcases hsp with hn | ⟨j', hj', hji⟩
    · rw [hn] at hj
      exact Option.noConfusion hj
    · have hrs : resolveFile fs MAXLINKS (joinPath mf f) = some (j', fs.inodes j') :=
        resolveFile_file MAXLINKS hj'
      have hij : i = j' := by
        simpa using ((samefile_eq hrh hrs).symm).trans hsame
      exact hji hij.symm
  · rw [hrh] at hres
    have h4 := Option.some.inj hres
    have hi1 : i = i' := congrArg Prod.fst h4
    have hi2 : fs.inodes i = c := congrArg Prod.snd h4
    have hthp : t ≠ joinPath home f := by
      intro hc
      rw [hc] at ht
      rw [ht] at hl
      exact Node.noConfusion (Option.some.inj hl)
    have htsp : t ≠ joinPath mf f := by
      intro hc
      rcases hsp with hn | ⟨j', hj', hji⟩
      · rw [hc, hn] at ht
        exact Option.noConfusion ht
      · rw [hc, hj'] at ht
        exact hji (Node.file.inj (Option.some.inj ht))
    refine ⟨hsok, hmsgs, he2, ?_, he1, ?_, ?_⟩
    · rw [hino, hi2]
    · rw [hframe t hthp htsp]
      exact ht
    · by_cases hc : i = fs.nextIno
      · rw [hc] at hi2 ⊢
        rw [hino, hi2]
      · exact hiframe i hc

theorem backup_home_symlink_processed_witness :
    stepOk (backupFile fsHomeLinkOnly "/h" "/m" "a" allYesAns) = true
    ∧ (backupFile fsHomeLinkOnly "/h" "/m" "a" allYesAns).msgs = ["Backing up a..."]
    ∧ (afterFS (backupFile fsHomeLinkOnly "/h" "/m" "a" allYesAns) fsHomeLinkOnly).entries "/m/a" = some (Node.file 1)
    ∧ (afterFS (backupFile fsHomeLinkOnly "/h" "/m" "a" allYesAns) fsHomeLinkOnly).inodes 1 = "X"
    ∧ (afterFS (backupFile fsHomeLinkOnly "/h" "/m" "a" allYesAns) fsHomeLinkOnly).entries "/h/a" = some (Node.link "/m/a")
    ∧ (afterFS (backupFile fsHomeLinkOnly "/h" "/m" "a" allYesAns) fsHomeLinkOnly).entries "/t" = some (Node.file 0)
    ∧ (afterFS (backupFile fsHomeLinkOnly "/h" "/m" "a" allYesAns) fsHomeLinkOnly).inodes 0 = "X" :=
  backup_home_symlink_processed fsHomeLinkOnly "/h" "/m" "a" "/t" allYesAns 0
    rfl rfl (Or.inl rfl) (by decide) (fun _ => rfl)

/-- C6 counterexample: neither malformed-locator case is routed to the
explanatory `error(...)` exit, because `Mackup.__init__` only catches
`IOError` — a locator file with a single token aborts with an uncaught
`IndexError`, and one whose second token `QQ` fails base64 decoding
(incorrect padding) aborts with the uncaught `TypeError` that Python 2's
`base64.b64decode` re-raises. -/
theorem locator_short_file_uncaught :
    mackupInit (some "onlyhost") = InitResult.uncaught PyExc.indexErr
    ∧ mackupInit (some "host QQ") = InitResult.uncaught PyExc.typeErr :=
  ⟨rfl, rfl⟩

/-- C6 amended: a missing or unreadable locator file is a fatal error with
the explanatory Dropbox message; a locator file with fewer than two
whitespace-separated tokens terminates the run with an uncaught
`IndexError`, and one whose second token fails base64 decoding with an
uncaught `TypeError` — neither takes the explanatory `error(...)` path,
and none of these is retried. -/
theorem locator_error_classes :
    mackupInit none = InitResult.fatalMsg dropboxMissingMsg
    ∧ (∀ s, (pySplit s).length < 2 →
        mackupInit (some s) = InitResult.uncaught PyExc.indexErr)
    ∧ (∀ s tok, (pySplit s).get? 1 = some tok → b64decode tok = none →
        mackupInit (some s) = InitResult.uncaught PyExc.typeErr) := by
  refine ⟨rfl, ?_, ?_⟩
  · intro s hlen
    have hget : (pySplit s).get? 1 = none := by
      rw [List.get?_eq_none]
      omega
    simp only [mackupInit, get_dropbox_folder_location, hget]
  · intro s tok hget hdec
    simp only [mackupInit, get_dropbox_folder_location, hget, hdec]

theorem locator_error_classes_witness :
    mackupInit (some "x") = InitResult.uncaught PyExc.indexErr
    ∧ mackupInit (some "x y") = InitResult.uncaught PyExc.typeErr :=
  ⟨locator_error_classes.2.1 "x" (by decide),
   locator_error_classes.2.2 "x y" "y" rfl rfl⟩

/-- C7: when the Dropbox folder is located and exists but its `Mackup`
subfolder does not, running restore is fatal — the process exits through
`error(...)` with the explanatory message — and performs zero file
mutations: the filesystem of the resulting world is exactly the initial
one (only the temporary working folder, outside the home and shared
trees, was created and is left behind). -/
theorem restore_missing_mackup_fatal (w : World) (home : String) (ans : String → Bool) (d : String)
    (hloc : get_dropbox_folder_location w.hostdb = Except.ok d)
    (hdb : isdir w.fs d = true)
    (hmk : isdir w.fs (d ++ "/Mackup") = false) :
    runMain Mode.restore home ans w
      = Outcome.fatal ⟨w.fs, w.hostdb, true⟩ (mackupMissingMsg (d ++ "/Mackup")) := by
  unfold runMain
  rw [hloc]
  simp only [hdb, hmk, if_true, Bool.false_eq_true, if_false]

theorem restore_missing_mackup_fatal_witness :
    runMain Mode.restore "/h" allYesAns ⟨fsMainNoMackup, hostdbOk, false⟩
      = Outcome.fatal ⟨fsMainNoMackup, hostdbOk, true⟩ (mackupMissingMsg ("/d" ++ "/Mackup")) :=
  restore_missing_mackup_fatal ⟨fsMainNoMackup, hostdbOk, false⟩ "/h" allYesAns "/d" rfl rfl rfl

/-- C8 counterexample: a fatal-error exit does not remove the temporary
working folder — the restore run with a missing `Mackup` folder ends in
the `error(...)` exit while the world still records the temporary folder
as existing. -/
theorem fatal_exit_keeps_temp_folder :
    runMain Mode.restore "/h" allYesAns ⟨fsMainNoMackup, hostdbOk, false⟩
      = Outcome.fatal ⟨fsMainNoMackup, hostdbOk, true⟩ (mackupMissingMsg "/d/Mackup")
    ∧ (⟨fsMainNoMackup, hostdbOk, true⟩ : World).tempExists = true :=
  ⟨rfl, rfl⟩

/-- C8 amended: the temporary working folder is removed before the program
exits on every successful completion (backup or restore), but not on
fatal-error exits, which terminate the process immediately. -/
theorem success_cleans_temp_folder (mode : Mode) (home : String) (ans : String → Bool)
    (w w' : World) (msgs : List String)
    (h : runMain mode home ans w = Outcome.success w' msgs) :
    w'.tempExists = false := by
  unfold runMain at h
  repeat' split at h
  all_goals try exact Outcome.noConfusion h
  all_goals try simp only [] at h
  all_goals repeat' split at h
  all_goals try exact Outcome.noConfusion h
  all_goals injection h with h1 h2
  all_goals rw [← h1]

theorem success_cleans_temp_folder_witness :
    (⟨fsMainReady, hostdbOk, false⟩ : World).tempExists = false :=
  success_cleans_temp_folder Mode.restore "/h" allYesAns
    ⟨fsMainReady, hostdbOk, false⟩ ⟨fsMainReady, hostdbOk, false⟩ [] rfl
